import Mathlib

/-!
Verification of the Multi-Perspective Issuance Corroboration (MPIC) core of
the ACME Validation Authority (VA).

The repository ships the VA's test suite (`va` package) but not the VA
implementation itself, so the coordinator, the quorum rule, the legacy
`PerformValidation` remote fan-out, the differential logger and the wildcard
handling are modelled here from the specification (and, where the
specification and the in-repository tests disagree on a concrete string or
behaviour, from the tests, which are the code of record).  Every model is an
executable definition; theorems below settle the frozen claims against them.
-/

namespace VA

/-- Problem `type` taxonomy (spec §7), bit-exact on the wire. -/
inductive ProblemType
  | connection
  | dns
  | tls
  | unauthorized
  | malformed
  | caa
  | orderNotReady
  | serverInternal
deriving DecidableEq

/-- An ACME-style problem document: a nil/absent problem means success. -/
structure Problem where
  ptype : ProblemType
  detail : String
deriving DecidableEq

/-- Modelled from the spec: the observable outcome of one remote perspective's
RPC.  `ok` is a nil problem; `prob` is a problem produced by the remote check;
`rpcFailed` is a broken RPC transport carrying the underlying error text;
`rpcCanceled` is a cancelled RPC. -/
inductive RemoteOutcome
  | ok
  | prob (p : Problem)
  | rpcFailed (err : String)
  | rpcCanceled
deriving DecidableEq

/-- One remote perspective's result: its RIR label and its outcome. -/
structure RemoteResult where
  rir : String
  outcome : RemoteOutcome
deriving DecidableEq

/-- A remote result counts as a success exactly when its problem is nil. -/
def passed (r : RemoteResult) : Bool :=
  match r.outcome with
  | .ok => true
  | _ => false

/-- Number of remotes returning a nil problem. -/
def successCount (rs : List RemoteResult) : Nat :=
  (rs.filter passed).length

/-- Number of remotes returning a non-nil problem (incl. transport failures). -/
def failCount (rs : List RemoteResult) : Nat :=
  (rs.filter (fun r => !passed r)).length

/-- RIR labels of the remotes returning a nil problem, in arrival order. -/
def passedRIRs (rs : List RemoteResult) : List String :=
  (rs.filter passed).map (fun r => r.rir)

/-- Number of distinct RIR labels among the nil-problem remotes. -/
def distinctRIRCount (rs : List RemoteResult) : Nat :=
  (passedRIRs rs).toFinset.card

/-- Modelled from the spec: the `max_allowed_failures` table of §4.1
(`f = 1` for `N ≤ 5`, `f = 2` for `N = 6`, `f = ⌈N/4⌉` for `N ≥ 7`). -/
def maxAllowedFailures (n : Nat) : Nat :=
  if n ≤ 5 then 1
  else if n = 6 then 2
  else (n + 3) / 4

/-- The declarative quorum rule with failure allowance `f`: success iff at
most `f` remotes failed and the successes span at least 2 distinct RIRs. -/
def quorumWith (f : Nat) (rs : List RemoteResult) : Bool :=
  decide (rs.length - successCount rs ≤ f) && decide (2 ≤ distinctRIRCount rs)

/-- The quorum rule at the configured failure allowance for `N` remotes. -/
def quorumMet (rs : List RemoteResult) : Bool :=
  quorumWith (maxAllowedFailures rs.length) rs

/-- Modelled from the spec: the early-termination loop of §4.1.  Results are
consumed in arrival order while the coordinator tracks the running success
and failure counters and the distinct RIRs seen among successes; it stops as
soon as `f + 1` failures are observed (failure) or `N - f` successes spanning
two distinct RIRs are observed (success), cancelling the outstanding RPCs.
Returns the decision together with the number of results consumed. -/
def processGo (n f : Nat) (succ fails : Nat) (rirs : Finset String) :
    List RemoteResult → Bool × Nat
  | [] => (decide (n - succ ≤ f) && decide (2 ≤ rirs.card), 0)
  | r :: rest =>
    if passed r then
      let succ' := succ + 1
      let rirs' := insert r.rir rirs
      if n - succ' ≤ f ∧ 2 ≤ rirs'.card then
        (true, 1)
      else
        let p := processGo n f succ' fails rirs' rest
        (p.1, p.2 + 1)
    else
      if f ≤ fails then
        (false, 1)
      else
        let p := processGo n f succ (fails + 1) rirs rest
        (p.1, p.2 + 1)

/-- The two MPIC operations exposed by the coordinator. -/
inductive MPICOp
  | challenge
  | caaCheck
deriving DecidableEq

/-- Wrapper text prepended to a remote failure surfaced as the overall
problem ("During secondary {domain validation|CAA check}: "). -/
def secondaryWrap : MPICOp → String
  | .challenge => "During secondary domain validation: "
  | .caaCheck => "During secondary CAA check: "

/-- Detail of a broken remote RPC transport as surfaced to the caller. -/
def rpcFailedDetail : MPICOp → String
  | .challenge => "Secondary domain validation RPC failed"
  | .caaCheck => "Secondary CAA check RPC failed"

/-- Detail of a cancelled remote RPC as surfaced to the caller. -/
def rpcCanceledDetail : MPICOp → String
  | .challenge => "Secondary domain validation RPC canceled"
  | .caaCheck => "Secondary CAA check RPC canceled"

/-- Modelled from the spec: the problem a failing remote contributes.  A
remote problem keeps its type and is wrapped with the secondary prefix;
transport failures and cancellations surface as sanitised `serverInternal`
problems. -/
def remoteFailureProblem (op : MPICOp) : RemoteOutcome → Option Problem
  | .ok => none
  | .prob p => some ⟨p.ptype, secondaryWrap op ++ p.detail⟩
  | .rpcFailed _ => some ⟨.serverInternal, secondaryWrap op ++ rpcFailedDetail op⟩
  | .rpcCanceled => some ⟨.serverInternal, secondaryWrap op ++ rpcCanceledDetail op⟩

/-- The MPIC summary attached to the audit log. -/
structure MPICSummary where
  quorumResult : String
  rirs : List String
deriving DecidableEq

/-- Result of one coordinator operation: the overall problem (nil on
success), the audit-log summary, and the number of remote RPCs invoked. -/
structure MPICResult where
  problem : Option Problem
  summary : MPICSummary
  remoteRPCsInvoked : Nat
deriving DecidableEq

/-- Duplicate-free, lexicographically sorted RIR labels of the nil-problem
remotes, as recorded in `MPICSummary.rirs`. -/
def sortedPassedRIRs (rs : List RemoteResult) : List String :=
  List.insertionSort (fun a b : String => a ≤ b) (passedRIRs rs).dedup

/-- Modelled from the spec: the MPIC coordinator skeleton of §4.1.  If the
primary fails, return its problem verbatim, with an empty quorum string, no
passed RIRs, and no remote RPC invoked.  Otherwise fan out to all remotes,
decide by the early-terminating quorum loop, and on failure surface the
earliest remote failure wrapped with the secondary prefix.  (When the quorum
is missed with no failed remote - all-success but single-RIR - neither the
spec nor the tests pin the detail; the model surfaces a bare `serverInternal`
wrapper, and no theorem depends on that corner.) -/
def doMPIC (op : MPICOp) (primary : Option Problem) (remotes : List RemoteResult) :
    MPICResult :=
  match primary with
  | some p => ⟨some p, ⟨"", []⟩, 0⟩
  | none =>
    let n := remotes.length
    let f := maxAllowedFailures n
    let decision := (processGo n f 0 0 ∅ remotes).1
    let prob :=
      if decision then none
      else some (((remotes.find? (fun r => !passed r)).bind
        (fun r => remoteFailureProblem op r.outcome)).getD
          ⟨.serverInternal, secondaryWrap op⟩)
    ⟨prob, ⟨Nat.repr (successCount remotes) ++ "/" ++ Nat.repr n,
      sortedPassedRIRs remotes⟩, n⟩

/-- Modelled from the spec: `ValidateChallenge`, the challenge-validation
entry point of the MPIC coordinator. -/
def ValidateChallenge (primary : Option Problem) (remotes : List RemoteResult) :
    MPICResult :=
  doMPIC .challenge primary remotes

/-- Result of `CheckCAA`: the MPIC outcome plus the audit-only recheck flag. -/
structure CheckCAAResultM where
  problem : Option Problem
  summary : MPICSummary
  remoteRPCsInvoked : Nat
  isRecheck : Bool
deriving DecidableEq

/-- Modelled from the spec: `CheckCAA`, the CAA-check entry point of the MPIC
coordinator.  `is_recheck` only flags the audit record; the semantics are
identical to a first check. -/
def CheckCAA (primary : Option Problem) (remotes : List RemoteResult)
    (isRecheck : Bool) : CheckCAAResultM :=
  let m := doMPIC .caaCheck primary remotes
  ⟨m.problem, m.summary, m.remoteRPCsInvoked, isRecheck⟩

/-- A remote perspective of the legacy `PerformValidation` fan-out: its
address label and its outcome. -/
structure OldRemote where
  address : String
  outcome : RemoteOutcome
deriving DecidableEq

/-- Success test for a legacy remote result. -/
def oldPassed (r : OldRemote) : Bool :=
  match r.outcome with
  | .ok => true
  | _ => false

/-- Number of failing legacy remote results. -/
def oldFailCount (rs : List OldRemote) : Nat :=
  (rs.filter (fun r => !oldPassed r)).length

/-- Modelled from the spec and `TestMultiVA`: the problem a failing remote
contributes in the legacy `PerformValidation` path.  The wrapper prefix is
"During secondary validation: " and transport failures surface as the
sanitised `serverInternal` detail "Remote PerformValidation RPC failed"
(resp. "... RPC canceled"). -/
def oldFailureProblem : RemoteOutcome → Option Problem
  | .ok => none
  | .prob p => some ⟨p.ptype, "During secondary validation: " ++ p.detail⟩
  | .rpcFailed _ =>
      some ⟨.serverInternal,
        "During secondary validation: Remote PerformValidation RPC failed"⟩
  | .rpcCanceled =>
      some ⟨.serverInternal,
        "During secondary validation: Remote PerformValidation RPC canceled"⟩

/-- Modelled from `TestMultiVA`: the audit line recording the true cause of a
broken remote RPC ("Remote VA \"addr\".PerformValidation failed: err"). -/
def oldAuditLine (r : OldRemote) : Option String :=
  match r.outcome with
  | .rpcFailed err =>
      some ("Remote VA \"" ++ r.address ++ "\".PerformValidation failed: " ++ err)
  | _ => none

/-- Result of the legacy remote fan-out: the surfaced problem (nil when at
most `maxRemoteFailures` remotes failed) and the emitted audit lines. -/
structure OldResult where
  problem : Option Problem
  auditLines : List String
deriving DecidableEq

/-- Modelled from the spec: the legacy `PerformValidation` remote fan-out.
The configured `maxRemoteFailures` is the failure budget (the legacy path
does not apply the `N`-based table or the RIR-diversity floor); on overall
failure the earliest remote failure is surfaced, wrapped.  Broken transports
are additionally recorded with their true cause in the audit lines. -/
def performRemoteValidation (maxRemoteFailures : Nat) (rs : List OldRemote) :
    OldResult :=
  let prob :=
    if oldFailCount rs ≤ maxRemoteFailures then none
    else (rs.find? (fun r => !oldPassed r)).bind (fun r => oldFailureProblem r.outcome)
  ⟨prob, rs.filterMap oldAuditLine⟩

/-- One remote VA's result as fed to the differential logger. -/
structure RemoteVAResult where
  vaHostname : String
  problem : Option Problem
deriving DecidableEq

/-- The structured content of a "remoteVADifferentials" INFO log line. -/
structure DifferentialLog where
  domain : String
  accountID : Nat
  challengeType : String
  remoteSuccesses : Nat
  remoteFailures : List RemoteVAResult
deriving DecidableEq

/-- Modelled from the spec and `TestLogRemoteDifferentials`: the remote
differential logger.  Where the spec's "at least one remote disagreed with
the majority" conflicts with the test's expectation that three identical
non-nil results are still logged, the test is followed: a line is emitted
exactly when at least one remote returned a non-nil problem, and it carries
the success count and the failing results. -/
def logRemoteResults (domain : String) (acctID : Nat) (challengeType : String)
    (results : List RemoteVAResult) : Option DifferentialLog :=
  let failures := results.filter (fun r => r.problem.isSome)
  if failures.length = 0 then none
  else some ⟨domain, acctID, challengeType,
    (results.filter (fun r => r.problem.isNone)).length, failures⟩

/-- Modelled from the spec: wildcard stripping.  `*.name` becomes `name`;
anything else is unchanged. -/
def stripWildcard (s : String) : String :=
  if s.data.take 2 = ['*', '.'] then String.mk (s.data.drop 2) else s

/-- The observable shape of one `PerformValidation` call: the top-level
hostname in the audit log, the `ValidationRecord` hostname, the overall
problem, and how many "Checked CAA records for" lines were logged. -/
structure ValidationResultM where
  auditHostname : String
  recordDnsName : String
  problem : Option Problem
  caaCheckLogs : Nat
deriving DecidableEq

/-- Modelled from the spec: `PerformValidation` strips the wildcard prefix,
runs the challenge performer (`dcv`) on the stripped hostname, and checks CAA
(`caa`, logging one CAA record line) only when the challenge validation
succeeded.  The audit log's top-level hostname is the identifier as given;
the `ValidationRecord` carries the stripped hostname. -/
def PerformValidation (dcv caa : String → Option Problem) (ident : String) :
    ValidationResultM :=
  let host := stripWildcard ident
  match dcv host with
  | some p => ⟨ident, host, some p, 0⟩
  | none => ⟨ident, host, caa host, 1⟩

theorem successCount_append (a b : List RemoteResult) :
    successCount (a ++ b) = successCount a + successCount b := by
  simp [successCount, List.filter_append]

theorem failCount_append (a b : List RemoteResult) :
    failCount (a ++ b) = failCount a + failCount b := by
  simp [failCount, List.filter_append]

theorem passedRIRs_append (a b : List RemoteResult) :
    passedRIRs (a ++ b) = passedRIRs a ++ passedRIRs b := by
  simp [passedRIRs, List.filter_append]

theorem successCount_singleton (r : RemoteResult) :
    successCount [r] = if passed r then 1 else 0 := by
  by_cases h : passed r = true <;> simp [successCount, h]

theorem failCount_singleton (r : RemoteResult) :
    failCount [r] = if passed r then 0 else 1 := by
  by_cases h : passed r = true <;> simp [failCount, h]

theorem passedRIRs_singleton (r : RemoteResult) :
    passedRIRs [r] = if passed r then [r.rir] else [] := by
  by_cases h : passed r = true <;> simp [passedRIRs, h]

theorem successCount_add_failCount (rs : List RemoteResult) :
    successCount rs + failCount rs = rs.length := by
  induction rs with
  | nil => rfl
  | cons r t ih =>
    by_cases h : passed r = true <;>
      simp [successCount, failCount, List.filter_cons, h] at ih ⊢ <;> omega

theorem length_sub_successCount (rs : List RemoteResult) :
    rs.length - successCount rs = failCount rs := by
  have h := successCount_add_failCount rs
  omega

/-- Unfolding of the Boolean quorum rule into its two arithmetic clauses. -/
theorem quorumWith_eq_true_iff (f : Nat) (rs : List RemoteResult) :
    quorumWith f rs = true ↔
      (rs.length - successCount rs ≤ f ∧ 2 ≤ distinctRIRCount rs) := by
  simp [quorumWith]

/-- The early-terminating loop decides exactly the declarative quorum rule,
whatever the arrival order of remote results: the loop invariant relates the
running counters to the counts over the consumed prefix. -/
theorem processGo_fst_correct (f : Nat) (rest : List RemoteResult) :
    ∀ pre : List RemoteResult,
      (processGo (pre ++ rest).length f (successCount pre) (failCount pre)
        (passedRIRs pre).toFinset rest).1 = quorumWith f (pre ++ rest) := by
  induction rest with
  | nil =>
    intro pre
    simp [processGo, quorumWith, distinctRIRCount]
  | cons r rest ih =>
    intro pre
    have hlist : pre ++ r :: rest = (pre ++ [r]) ++ rest := by simp
    by_cases hp : passed r = true
    · have hs : successCount (pre ++ [r]) = successCount pre + 1 := by
        simp [successCount_append, successCount_singleton, hp]
      have hfc : failCount (pre ++ [r]) = failCount pre := by
        simp [failCount_append, failCount_singleton, hp]
      have hr : passedRIRs (pre ++ [r]) = passedRIRs pre ++ [r.rir] := by
        simp [passedRIRs_append, passedRIRs_singleton, hp]
      have hrf : (passedRIRs (pre ++ [r])).toFinset
          = insert r.rir (passedRIRs pre).toFinset := by
        rw [hr, List.toFinset_append, Finset.union_comm]
        simp [← Finset.insert_eq]
      simp only [processGo, hp, if_true]
      by_cases hEarly : (pre ++ r :: rest).length - (successCount pre + 1) ≤ f ∧
          2 ≤ (insert r.rir (passedRIRs pre).toFinset).card
      · rw [if_pos hEarly]
        have hlen : (pre ++ r :: rest).length = pre.length + rest.length + 1 := by
          simp
          omega
        have htot : successCount (pre ++ r :: rest)
            = successCount pre + 1 + successCount rest := by
          rw [hlist, successCount_append, hs]
        have hA : (pre ++ r :: rest).length - successCount (pre ++ r :: rest) ≤ f := by
          have h1 := hEarly.1
          omega
        have hB : 2 ≤ distinctRIRCount (pre ++ r :: rest) := by
          have hsub : (passedRIRs (pre ++ [r])).toFinset
              ⊆ (passedRIRs ((pre ++ [r]) ++ rest)).toFinset := by
            rw [passedRIRs_append (pre ++ [r]) rest, List.toFinset_append]
            exact Finset.subset_union_left
          have hcard := Finset.card_le_card hsub
          rw [hrf] at hcard
          have h2 := hEarly.2
          rw [hlist]
          unfold distinctRIRCount
          omega
        have hq : quorumWith f (pre ++ r :: rest) = true :=
          (quorumWith_eq_true_iff f (pre ++ r :: rest)).mpr ⟨hA, hB⟩
        simp [hq]
      · rw [if_neg hEarly]
        have hihr := ih (pre ++ [r])
        rw [hs, hfc, hrf] at hihr
        rw [hlist]
        have hlen : ((pre ++ [r]) ++ rest).length = (pre ++ [r] ++ rest).length := by
          simp
        simpa using hihr
    · have hs : successCount (pre ++ [r]) = successCount pre := by
        simp [successCount_append, successCount_singleton, hp]
      have hfc : failCount (pre ++ [r]) = failCount pre + 1 := by
        simp [failCount_append, failCount_singleton, hp]
      have hrf : (passedRIRs (pre ++ [r])).toFinset = (passedRIRs pre).toFinset := by
        simp [passedRIRs_append, passedRIRs_singleton, hp]
      simp only [processGo, hp, if_false, Bool.false_eq_true]
      by_cases hb : f ≤ failCount pre
      · rw [if_pos hb]
        have htot : failCount (pre ++ r :: rest)
            = failCount pre + 1 + failCount rest := by
          rw [hlist, failCount_append, hfc]
        have hpart := successCount_add_failCount (pre ++ r :: rest)
        have hA : ¬ ((pre ++ r :: rest).length - successCount (pre ++ r :: rest) ≤ f) := by
          omega
        have hq : quorumWith f (pre ++ r :: rest) = false := by
          rw [← Bool.not_eq_true, quorumWith_eq_true_iff]
          intro hcon
          exact hA hcon.1
        simp [hq]
      · rw [if_neg hb]
        have hihr := ih (pre ++ [r])
        rw [hs, hfc, hrf] at hihr
        rw [hlist]
        simpa using hihr

/-- The loop launched from the empty state decides the quorum rule. -/
theorem processGo_eq_quorum (f : Nat) (rs : List RemoteResult) :
    (processGo rs.length f 0 0 ∅ rs).1 = quorumWith f rs := by
  have h := processGo_fst_correct f rs []
  simpa [successCount, failCount, passedRIRs] using h

/-- When the primary succeeded, the coordinator's surfaced problem is the
quorum decision applied to the earliest-failure wrapper. -/
theorem doMPIC_none_problem (op : MPICOp) (remotes : List RemoteResult) :
    (doMPIC op none remotes).problem =
      if quorumMet remotes then none
      else some (((remotes.find? (fun r => !passed r)).bind
        (fun r => remoteFailureProblem op r.outcome)).getD
          ⟨.serverInternal, secondaryWrap op⟩) := by
  have h : (doMPIC op none remotes).problem =
      if (processGo remotes.length (maxAllowedFailures remotes.length)
            0 0 ∅ remotes).1 = true then none
      else some (((remotes.find? (fun r => !passed r)).bind
        (fun r => remoteFailureProblem op r.outcome)).getD
          ⟨.serverInternal, secondaryWrap op⟩) := rfl
  rw [h, processGo_eq_quorum]
  rfl

/-- When the primary succeeded, the coordinator's summary is the success
count over the configured remotes and the sorted passed RIRs. -/
theorem doMPIC_none_summary (op : MPICOp) (remotes : List RemoteResult) :
    (doMPIC op none remotes).summary =
      ⟨Nat.repr (successCount remotes) ++ "/" ++ Nat.repr remotes.length,
        sortedPassedRIRs remotes⟩ := rfl

/-- The coordinator's overall problem is nil exactly when the quorum rule
holds, whenever the primary succeeded. -/
theorem doMPIC_problem_none_iff (op : MPICOp) (remotes : List RemoteResult) :
    (doMPIC op none remotes).problem = none ↔ quorumMet remotes = true := by
  rw [doMPIC_none_problem]
  by_cases h : quorumMet remotes = true
  · simp [h]
  · simp [h]

/-- C1: for every configuration of N remote perspectives (with the failure
allowance f = 1 for N ≤ 5, f = 2 for N = 6, f = ⌈N/4⌉ for N ≥ 7, encoded in
`maxAllowedFailures`) and a request whose primary check succeeds,
`ValidateChallenge` and `CheckCAA` return overall success (nil problem) iff
at least N − f remotes returned a nil problem and the nil-problem remotes
span at least 2 distinct RIR labels; otherwise a failure problem. -/
theorem validateChallenge_checkCAA_quorum_iff (remotes : List RemoteResult) (ir : Bool) :
    ((ValidateChallenge none remotes).problem = none ↔
      (remotes.length - successCount remotes ≤ maxAllowedFailures remotes.length ∧
        2 ≤ distinctRIRCount remotes)) ∧
    ((CheckCAA none remotes ir).problem = none ↔
      (remotes.length - successCount remotes ≤ maxAllowedFailures remotes.length ∧
        2 ≤ distinctRIRCount remotes)) := by
  have h1 := doMPIC_problem_none_iff .challenge remotes
  have h2 := doMPIC_problem_none_iff .caaCheck remotes
  rw [quorumMet, quorumWith_eq_true_iff] at h1 h2
  exact ⟨h1, h2⟩

/-- C2: when the primary perspective fails with problem p, no remote RPC is
invoked, the returned problem is p verbatim, the summary's quorum string is
empty and its passed-RIR list is empty, for both coordinator operations. -/
theorem primary_failure_short_circuit (p : Problem) (remotes : List RemoteResult)
    (ir : Bool) :
    ValidateChallenge (some p) remotes = ⟨some p, ⟨"", []⟩, 0⟩ ∧
    CheckCAA (some p) remotes ir = ⟨some p, ⟨"", []⟩, 0, ir⟩ :=
  ⟨rfl, rfl⟩

/-- C3: whenever remote perspectives are consulted (the primary succeeded),
the summary's quorum string is "k/N" for k the number of nil-problem remotes
and N the number of configured remotes, and its RIR list is sorted,
duplicate-free, and contains exactly the RIR labels of the nil-problem
remotes. -/
theorem mpic_summary_fields (op : MPICOp) (remotes : List RemoteResult) :
    (doMPIC op none remotes).summary.quorumResult
        = Nat.repr (successCount remotes) ++ "/" ++ Nat.repr remotes.length ∧
    List.Sorted (fun a b : String => a ≤ b) (doMPIC op none remotes).summary.rirs ∧
    (doMPIC op none remotes).summary.rirs.Nodup ∧
    (∀ a : String, a ∈ (doMPIC op none remotes).summary.rirs ↔
      ∃ r ∈ remotes, passed r = true ∧ r.rir = a) := by
  rw [doMPIC_none_summary]
  have hperm := List.perm_insertionSort (fun a b : String => a ≤ b)
    (passedRIRs remotes).dedup
  refine ⟨rfl, ?_, ?_, ?_⟩
  · exact List.sorted_insertionSort _ _
  · exact (hperm.nodup_iff).mpr ((passedRIRs remotes).nodup_dedup)
  · intro a
    show a ∈ sortedPassedRIRs remotes ↔ _
    rw [sortedPassedRIRs, hperm.mem_iff, List.mem_dedup]
    simp [passedRIRs, List.mem_map, List.mem_filter, and_assoc]

/-- C4 counterexample: in the claim's own scenario (primary passing, remotes
one passing and one with a broken RPC transport, a zero remote-failure
budget as configured by the test), the surfaced detail is "During secondary
validation: Remote PerformValidation RPC failed"; it is not the claim's
"During secondary domain validation: Remote PerformValidation RPC failed". -/
theorem brokenRemote_detail_cex :
    (performRemoteValidation 0
      [⟨"remote 1", .ok⟩, ⟨"broken", .rpcFailed "brokenRemoteVA is broken"⟩]).problem
        ≠ some ⟨.serverInternal,
          "During secondary domain validation: Remote PerformValidation RPC failed"⟩ ∧
    (performRemoteValidation 0
      [⟨"remote 1", .ok⟩, ⟨"broken", .rpcFailed "brokenRemoteVA is broken"⟩]).problem
        = some ⟨.serverInternal,
          "During secondary validation: Remote PerformValidation RPC failed"⟩ := by
  constructor
  · decide
  · decide

/-- C4 (amended): when enough remote RPCs fail at the transport level to
exceed the failure budget and the earliest remote failure is such a broken
transport, the overall result is a serverInternal problem whose detail is
"During secondary validation: Remote PerformValidation RPC failed", while an
audit line records the wrapped true cause of that remote's failure. -/
theorem brokenRemote_surfaces_serverInternal (mf : Nat) (rs : List OldRemote)
    (addr err : String)
    (hq : mf < oldFailCount rs)
    (hf : rs.find? (fun r => !oldPassed r) = some ⟨addr, .rpcFailed err⟩) :
    (performRemoteValidation mf rs).problem
      = some ⟨.serverInternal,
          "During secondary validation: Remote PerformValidation RPC failed"⟩ ∧
    ("Remote VA \"" ++ addr ++ "\".PerformValidation failed: " ++ err)
      ∈ (performRemoteValidation mf rs).auditLines := by
  constructor
  · have h : (performRemoteValidation mf rs).problem =
        if oldFailCount rs ≤ mf then none
        else (rs.find? (fun r => !oldPassed r)).bind
          (fun r => oldFailureProblem r.outcome) := rfl
    rw [h, if_neg (by omega), hf]
    rfl
  · have h : (performRemoteValidation mf rs).auditLines
        = rs.filterMap oldAuditLine := rfl
    rw [h]
    have hmem : (⟨addr, .rpcFailed err⟩ : OldRemote) ∈ rs :=
      List.mem_of_find?_eq_some hf
    exact List.mem_filterMap.mpr ⟨⟨addr, .rpcFailed err⟩, hmem, rfl⟩

/-- C4 witness: the test scenario itself, through the amended theorem. -/
theorem brokenRemote_surfaces_serverInternal_witness :
    (performRemoteValidation 0
      [⟨"remote 1", .ok⟩, ⟨"broken", .rpcFailed "brokenRemoteVA is broken"⟩]).problem
      = some ⟨.serverInternal,
          "During secondary validation: Remote PerformValidation RPC failed"⟩ ∧
    ("Remote VA \"" ++ "broken" ++ "\".PerformValidation failed: "
        ++ "brokenRemoteVA is broken")
      ∈ (performRemoteValidation 0
        [⟨"remote 1", .ok⟩, ⟨"broken", .rpcFailed "brokenRemoteVA is broken"⟩]).auditLines :=
  brokenRemote_surfaces_serverInternal 0
    [⟨"remote 1", .ok⟩, ⟨"broken", .rpcFailed "brokenRemoteVA is broken"⟩]
    "broken" "brokenRemoteVA is broken" (by decide) (by decide)

/-- C5: a remote returning cancelled counts as one failure toward the quorum
rule - the operation still succeeds exactly when the quorum rule holds - and
when the quorum is missed with the earliest remote failure a cancellation,
the surfaced problem is serverInternal carrying an "RPC canceled" wrapper. -/
theorem canceled_remote_counts_as_failure (rs : List RemoteResult)
    (rc : RemoteResult)
    (hf : rs.find? (fun r => !passed r) = some rc)
    (hc : rc.outcome = .rpcCanceled) :
    passed rc = false ∧
    ((ValidateChallenge none rs).problem = none ↔ quorumMet rs = true) ∧
    (quorumMet rs = false →
      (ValidateChallenge none rs).problem
        = some ⟨.serverInternal,
            "During secondary domain validation: Secondary domain validation RPC canceled"⟩ ∧
      ∃ pre : String,
        "During secondary domain validation: Secondary domain validation RPC canceled"
          = pre ++ "RPC canceled") := by
  refine ⟨by rw [passed, hc], doMPIC_problem_none_iff .challenge rs, ?_⟩
  intro hq
  constructor
  · rw [ValidateChallenge, doMPIC_none_problem, if_neg (by simp [hq]), hf]
    rw [Option.some_bind, hc]
    rfl
  · exact ⟨"During secondary domain validation: Secondary domain validation ", by decide⟩

/-- C5 witness: the two-cancelled-remotes scenario, through the theorem. -/
theorem canceled_remote_counts_as_failure_witness :
    (ValidateChallenge none
      [⟨"ARIN", .ok⟩, ⟨"", .rpcCanceled⟩, ⟨"", .rpcCanceled⟩]).problem
      = some ⟨.serverInternal,
          "During secondary domain validation: Secondary domain validation RPC canceled"⟩ :=
  ((canceled_remote_counts_as_failure
    [⟨"ARIN", .ok⟩, ⟨"", .rpcCanceled⟩, ⟨"", .rpcCanceled⟩]
    ⟨"", .rpcCanceled⟩ (by decide) rfl).2.2 (by decide)).1

/-- C6 counterexample: with N = 2 and f = 1 (the parameters the claim
asserts), one fast remote failure does not reach the f + 1 failure budget:
the early-termination loop consumes both results - it waits for the slow
second remote instead of returning after the first failure. -/
theorem earlyReturn_f1_cex :
    (processGo 2 1 0 0 ∅
      [⟨"ARIN", .prob ⟨.unauthorized, "challenge mismatch"⟩⟩, ⟨"RIPE", .ok⟩]).2 = 2 ∧
    ([⟨"ARIN", .prob ⟨.unauthorized, "challenge mismatch"⟩⟩,
      ⟨"RIPE", .ok⟩] : List RemoteResult).length = 2 := by
  constructor
  · decide
  · decide

/-- C6 (amended): once the observed remote failures reach the configured
budget (fails previously seen plus the incoming failure equal f + 1), the
loop decides failure immediately and consumes only that one result - the
remaining (slow) remotes are never awaited and their RPCs are cancelled.  In
the early-return test the budget is the configured maxRemoteFailures = 0, so
the single fast failure decides the call. -/
theorem earlyReturn_on_exhausted_budget (n f succ fails : Nat)
    (rirs : Finset String) (r : RemoteResult) (rest : List RemoteResult)
    (hr : passed r = false) (hb : f ≤ fails) :
    processGo n f succ fails rirs (r :: rest) = (false, 1) := by
  simp [processGo, hr, hb]

/-- C6 witness: one fast failure with budget 0 decides the call after
consuming a single result, whatever the slow remote would have returned. -/
theorem earlyReturn_on_exhausted_budget_witness :
    processGo 2 0 0 0 ∅
      [⟨"ARIN", .prob ⟨.unauthorized, "challenge mismatch"⟩⟩, ⟨"RIPE", .ok⟩]
      = (false, 1) :=
  earlyReturn_on_exhausted_budget 2 0 0 0 ∅
    ⟨"ARIN", .prob ⟨.unauthorized, "challenge mismatch"⟩⟩ [⟨"RIPE", .ok⟩]
    (by decide) (by decide)

/-- C7: for a wildcard identifier `*.name`, validation is performed on the
stripped hostname: the audit log's top-level hostname is the wildcard form,
the `ValidationRecord` hostname is the stripped form, and the validation
outcome is the same as for the non-wildcard `name`. -/
theorem wildcard_validation (dcv caa : String → Option Problem) (name : String)
    (h : ¬ name.data.take 2 = ['*', '.']) :
    (PerformValidation dcv caa (String.mk ('*' :: '.' :: name.data))).auditHostname
        = String.mk ('*' :: '.' :: name.data) ∧
    (PerformValidation dcv caa (String.mk ('*' :: '.' :: name.data))).recordDnsName
        = name ∧
    (PerformValidation dcv caa (String.mk ('*' :: '.' :: name.data))).problem
        = (PerformValidation dcv caa name).problem := by
  have hstrip : stripWildcard (String.mk ('*' :: '.' :: name.data)) = name := by
    unfold stripWildcard
    rw [if_pos (by rfl)]
    cases name
    rfl
  have hname : stripWildcard name = name := by
    unfold stripWildcard
    rw [if_neg h]
  refine ⟨?_, ?_, ?_⟩
  · simp only [PerformValidation, hstrip]
    cases dcv name <;> rfl
  · simp only [PerformValidation, hstrip]
    cases dcv name <;> rfl
  · simp only [PerformValidation, hstrip, hname]
    cases dcv name <;> rfl

/-- C7 witness: the wildcard scenario `*.good-dns01.com` of the tests. -/
theorem wildcard_validation_witness :
    (PerformValidation (fun _ => none) (fun _ => none)
        (String.mk ('*' :: '.' :: "good-dns01.com".data))).auditHostname
      = String.mk ('*' :: '.' :: "good-dns01.com".data) ∧
    (PerformValidation (fun _ => none) (fun _ => none)
        (String.mk ('*' :: '.' :: "good-dns01.com".data))).recordDnsName
      = "good-dns01.com" ∧
    (PerformValidation (fun _ => none) (fun _ => none)
        (String.mk ('*' :: '.' :: "good-dns01.com".data))).problem
      = (PerformValidation (fun _ => none) (fun _ => none) "good-dns01.com").problem :=
  wildcard_validation (fun _ => none) (fun _ => none) "good-dns01.com" (by decide)

/-- C8: `CheckCAA` with is_recheck = false and with is_recheck = true return
the same problem disposition and the same summary for every identifier and
fixed DNS/remote state; only the audit recheck flag differs. -/
theorem checkCAA_recheck_same_disposition (primary : Option Problem)
    (remotes : List RemoteResult) :
    (CheckCAA primary remotes false).problem = (CheckCAA primary remotes true).problem ∧
    (CheckCAA primary remotes false).summary = (CheckCAA primary remotes true).summary ∧
    (CheckCAA primary remotes false).remoteRPCsInvoked
        = (CheckCAA primary remotes true).remoteRPCsInvoked ∧
    (CheckCAA primary remotes false).isRecheck = false ∧
    (CheckCAA primary remotes true).isRecheck = true :=
  ⟨rfl, rfl, rfl, rfl, rfl⟩

/-- C9 counterexample: three remote results that all agree (the same non-nil
problem, so no remote disagrees with the majority) still cause a
remoteVADifferentials line to be emitted, contradicting the claim that no
line is emitted when all remote results agree. -/
theorem logRemoteDifferentials_all_equal_cex :
    (logRemoteResults "example.com" 1999 "blorpus-01"
      [⟨"remoteA", some ⟨.dns, "root DNS servers closed at 4:30pm"⟩⟩,
       ⟨"remoteB", some ⟨.dns, "root DNS servers closed at 4:30pm"⟩⟩,
       ⟨"remoteC", some ⟨.dns, "root DNS servers closed at 4:30pm"⟩⟩]).isSome = true ∧
    List.Pairwise (fun a b : RemoteVAResult => a.problem = b.problem)
      [⟨"remoteA", some ⟨.dns, "root DNS servers closed at 4:30pm"⟩⟩,
       ⟨"remoteB", some ⟨.dns, "root DNS servers closed at 4:30pm"⟩⟩,
       ⟨"remoteC", some ⟨.dns, "root DNS servers closed at 4:30pm"⟩⟩] := by
  constructor
  · decide
  · decide

/-- C9 (amended): a remoteVADifferentials line is emitted exactly when at
least one remote perspective returned a non-nil problem; when every remote
returned a nil problem, no line is emitted. -/
theorem logRemoteDifferentials_iff_failure (domain : String) (acctID : Nat)
    (challengeType : String) (results : List RemoteVAResult) :
    (logRemoteResults domain acctID challengeType results).isSome = true ↔
      ∃ r ∈ results, r.problem.isSome = true := by
  unfold logRemoteResults
  by_cases h : (results.filter (fun r => r.problem.isSome)).length = 0
  · rw [if_pos h]
    rw [List.length_eq_zero, List.filter_eq_nil_iff] at h
    simp only [Option.isSome_none, Bool.false_eq_true, false_iff, not_exists]
    intro r
    simp only [not_and]
    exact fun hmem => h r hmem
  · rw [if_neg h]
    simp only [Option.isSome_some, true_iff]
    have hne : results.filter (fun r => r.problem.isSome) ≠ [] := by
      intro hnil
      exact h (by rw [hnil]; rfl)
    obtain ⟨r, hr⟩ := List.exists_mem_of_ne_nil _ hne
    have hmem := List.mem_filter.mp hr
    exact ⟨r, hmem.1, hmem.2⟩

/-- C10: within a single `PerformValidation` call, the CAA check runs (and
its record is logged, exactly once) iff the challenge validation succeeded;
when the validation fails the CAA check is skipped. -/
theorem dcv_then_caa_sequencing (dcv caa : String → Option Problem) (ident : String) :
    ((PerformValidation dcv caa ident).caaCheckLogs = 1 ↔
        dcv (stripWildcard ident) = none) ∧
    ((PerformValidation dcv caa ident).caaCheckLogs = 0 ↔
        ¬ dcv (stripWildcard ident) = none) := by
  have hP : PerformValidation dcv caa ident =
      match dcv (stripWildcard ident) with
      | some p => ⟨ident, stripWildcard ident, some p, 0⟩
      | none => ⟨ident, stripWildcard ident, caa (stripWildcard ident), 1⟩ := rfl
  rw [hP]
  cases h : dcv (stripWildcard ident) <;> simp [h]

end VA
